import Mathlib

/-!
Verification of the tax-calculator repository (`functions.py`).

The Python source is embedded shallowly over exact rationals `ℚ`:
Python floats become `ℚ`, `float('inf')` (the last bracket's upper
bound) becomes `none : Option ℚ`, Python `round(x, 2)` becomes exact
round-half-to-even at two decimal places, and the `try/except` around
`float(...)` coercion becomes an `Except`-returning wrapper over values
that may or may not be interpretable as numbers.
-/

namespace TaxProgram

/-- One row of the `brackets` table in `calculate_tax`:
`(upper_limit, base_tax, rate_on_excess)`.  `upper = none` models
`float('inf')` in the last row. -/
structure Band where
  upper : Option ℚ
  base : ℚ
  rate : ℚ
  deriving Repr, DecidableEq

/-- The fixed bracket table of `calculate_tax` (LHDN / PwC YA 2024/2025),
row for row as in the source. -/
def brackets : List Band :=
  [ ⟨some 5000,    0,      0⟩,
    ⟨some 20000,   0,      1/100⟩,
    ⟨some 35000,   150,    3/100⟩,
    ⟨some 50000,   600,    6/100⟩,
    ⟨some 70000,   1500,   11/100⟩,
    ⟨some 100000,  3700,   19/100⟩,
    ⟨some 400000,  9400,   25/100⟩,
    ⟨some 600000,  84400,  26/100⟩,
    ⟨some 2000000, 136400, 28/100⟩,
    ⟨none,         528400, 30/100⟩ ]

/-- Model of `min(chargeable, upper)` where `upper` may be `float('inf')`. -/
def minUpper (c : ℚ) : Option ℚ → ℚ
  | none => c
  | some u => min c u

/-- The loop `for upper, base, rate in brackets` of `calculate_tax`:
`lower` is the previous upper bound (`none` meaning `float('inf')`,
in which case `chargeable <= lower` always holds and the loop breaks).
Returns the accumulated `tax`. -/
def taxLoop (c : ℚ) : Option ℚ → List Band → ℚ
  | _, [] => 0
  | none, _ :: _ => 0
  | some lower, b :: rest =>
    if c ≤ lower then 0
    else
      let taxable_in_band := minUpper c b.upper - lower
      let incremental := if b.rate = 0 then 0 else taxable_in_band * b.rate
      incremental + taxLoop c b.upper rest

/-- Round a rational to the nearest integer, ties to even
(the default rounding of Python's `round`). -/
def roundHalfEven (q : ℚ) : ℤ :=
  if Int.fract q < 1/2 then ⌊q⌋
  else if 1/2 < Int.fract q then ⌊q⌋ + 1
  else if ⌊q⌋ % 2 = 0 then ⌊q⌋ else ⌊q⌋ + 1

/-- Model of `round(x, 2)`: round to two decimal places, ties to even. -/
def round2 (q : ℚ) : ℚ := (roundHalfEven (q * 100) : ℚ) / 100

/-- The body of `calculate_tax` on numeric inputs (after the `float(...)` coercions
succeeded): `chargeable = max(0, income - tax_relief)`, then the
progressive band loop, then `round(tax, 2)`. -/
def calculate_tax (income tax_relief : ℚ) : ℚ :=
  let chargeable := max 0 (income - tax_relief)
  round2 (taxLoop chargeable (some 0) brackets)

/-- A value passed to `calculate_tax`.  `toFloat` is the result of the
Python `float(...)` coercion: `some q` when the value can be interpreted
as the real number `q`, `none` when the coercion raises. -/
structure PyVal where
  toFloat : Option ℚ
  deriving Repr, DecidableEq

/-- The single error kind of the core (`ValueError` in the source, called
`InvalidInputError` in the design). -/
inductive TaxError where
  | invalidInput (msg : String)
  deriving Repr, DecidableEq

/-- Full `calculate_tax` including its `try: income = float(income);
tax_relief = float(tax_relief) except: raise ValueError(...)` prologue. -/
def calculate_tax_checked (income tax_relief : PyVal) : Except TaxError ℚ :=
  match income.toFloat, tax_relief.toFloat with
  | some i, some r => .ok (calculate_tax i r)
  | _, _ => .error (.invalidInput "Income and tax_relief must be numeric.")

/-- A Python argument as seen by `verify_user`'s `isinstance(_, str)`
checks: either a string or a value of any other type. -/
inductive PyArg where
  | str (s : String)
  | other
  deriving Repr, DecidableEq

/-- Model of `''.join(filter(str.isdigit, ic_number))` as a character list. -/
def icDigits (ic : String) : List Char := ic.toList.filter Char.isDigit

/-- The function `verify_user(ic_number, password)`: both arguments must be strings,
the digits of `ic_number` must number exactly 12, and `password` must
equal the last 4 of those digits (`ic_clean[-4:]`). -/
def verify_user : PyArg → PyArg → Bool
  | .str ic, .str password =>
    let ic_clean := icDigits ic
    if ic_clean.length ≠ 12 then false
    else password == String.mk (ic_clean.drop (ic_clean.length - 4))
  | _, _ => false

/-- The function `read_from_csv(filename)`, with the file system abstracted as a map
from filenames to file contents (`none` = missing file) and
`pd.read_csv` abstracted as a parser returning `none` exactly when it
raises (the `except` branch).  Returns `none` for a missing file or a
failed parse, and the parsed `DataFrame` otherwise. -/
def read_from_csv {Content Frame : Type} (fs : String → Option Content)
    (readCsv : Content → Option Frame) (filename : String) : Option Frame :=
  match fs filename with
  | none => none
  | some content =>
    match readCsv content with
    | none => none
    | some df => some df

/-- Modelled from the spec: the bracket table as the spec states it, as
pairs (upper bound, marginal rate), `none` = +infinity. -/
def specBands : List (Option ℚ × ℚ) :=
  [ (some 5000, 0), (some 20000, 1/100), (some 35000, 3/100),
    (some 50000, 6/100), (some 70000, 11/100), (some 100000, 19/100),
    (some 400000, 25/100), (some 600000, 26/100), (some 2000000, 28/100),
    (none, 30/100) ]

/-- Modelled from the spec: iterate the bands in ascending order with
`lower` starting at 0, stop when `chargeable <= lower`, and add
`(min(chargeable, u) - lower) * r` for each band (no special case for a
zero rate). -/
def specTaxLoop (c : ℚ) : Option ℚ → List (Option ℚ × ℚ) → ℚ
  | _, [] => 0
  | none, _ :: _ => 0
  | some lower, (u, r) :: rest =>
    if c ≤ lower then 0
    else (minUpper c u - lower) * r + specTaxLoop c u rest

/-- Modelled from the spec: the reference `computeTax` — the band sum on
`chargeable = max(0, income - relief)`, rounded to 2 decimal places. -/
def computeTax (income relief : ℚ) : ℚ :=
  round2 (specTaxLoop (max 0 (income - relief)) (some 0) specBands)

/-- Cumulative tax obtained by taking every listed band in full:
each band contributes its whole width times its rate.  Used to state
boundary continuity. -/
def fullBandsTax : ℚ → List Band → ℚ
  | _, [] => 0
  | lower, b :: rest =>
    match b.upper with
    | none => 0
    | some u => (u - lower) * b.rate + fullBandsTax u rest

/-- Well-formedness of a tail of the bracket table relative to the
current `lower` bound: rates are non-negative and upper bounds are at
least `lower` and ascending. -/
def chainOK : ℚ → List Band → Prop
  | _, [] => True
  | l, b :: rest =>
    0 ≤ b.rate ∧
    match b.upper with
    | none => True
    | some u => l ≤ u ∧ chainOK u rest

theorem chainOK_brackets : chainOK 0 brackets := by
  simp only [brackets, chainOK]
  norm_num

theorem taxLoop_of_none (c : ℚ) (bs : List Band) : taxLoop c none bs = 0 := by
  cases bs <;> rfl

theorem taxLoop_cons (c l : ℚ) (b : Band) (rest : List Band) :
    taxLoop c (some l) (b :: rest) =
      if c ≤ l then 0
      else (if b.rate = 0 then 0 else (minUpper c b.upper - l) * b.rate) +
        taxLoop c b.upper rest := rfl

theorem specTaxLoop_of_none (c : ℚ) (bs : List (Option ℚ × ℚ)) :
    specTaxLoop c none bs = 0 := by
  cases bs <;> rfl

theorem taxLoop_nonneg (c : ℚ) :
    ∀ (bs : List Band) (l : ℚ), chainOK l bs → 0 ≤ taxLoop c (some l) bs := by
  intro bs
  induction bs with
  | nil => intro l _; simp [taxLoop]
  | cons b rest ih =>
    intro l hok
    obtain ⟨hrate, hrest⟩ := hok
    rw [taxLoop_cons]
    split
    · exact le_refl 0
    · rename_i hc
      push_neg at hc
      have hband : 0 ≤ minUpper c b.upper - l := by
        cases hb : b.upper with
        | none => simp [minUpper]; linarith
        | some u =>
          rw [hb] at hrest
          simp only [minUpper, sub_nonneg, le_min_iff]
          exact ⟨le_of_lt hc, hrest.1⟩
      have htail : 0 ≤ taxLoop c b.upper rest := by
        cases hb : b.upper with
        | none => rw [taxLoop_of_none]
        | some u =>
          rw [hb] at hrest
          exact ih u hrest.2
      have hterm : 0 ≤ if b.rate = 0 then 0 else (minUpper c b.upper - l) * b.rate := by
        split
        · exact le_refl 0
        · exact mul_nonneg hband hrate
      linarith

theorem taxLoop_mono {c₁ c₂ : ℚ} (h : c₁ ≤ c₂) :
    ∀ (bs : List Band) (l : ℚ), chainOK l bs →
      taxLoop c₁ (some l) bs ≤ taxLoop c₂ (some l) bs := by
  intro bs
  induction bs with
  | nil => intro l _; simp [taxLoop]
  | cons b rest ih =>
    intro l hok
    obtain ⟨hrate, hrest⟩ := hok
    rw [taxLoop_cons, taxLoop_cons]
    by_cases h1 : c₁ ≤ l
    · rw [if_pos h1]
      split
      · exact le_refl 0
      · exact taxLoop_nonneg c₂ (b :: rest) l ⟨hrate, hrest⟩ |>.trans_eq (by rw [taxLoop_cons]; rename_i h2; rw [if_neg h2])
    · have h2 : ¬ c₂ ≤ l := fun hc => h1 (h.trans hc)
      rw [if_neg h1, if_neg h2]
      have hmin : minUpper c₁ b.upper ≤ minUpper c₂ b.upper := by
        cases b.upper with
        | none => exact h
        | some u => exact min_le_min h (le_refl u)
      have hterm : (if b.rate = 0 then 0 else (minUpper c₁ b.upper - l) * b.rate) ≤
          (if b.rate = 0 then 0 else (minUpper c₂ b.upper - l) * b.rate) := by
        split
        · exact le_refl 0
        · exact mul_le_mul_of_nonneg_right (by linarith) hrate
      have htail : taxLoop c₁ b.upper rest ≤ taxLoop c₂ b.upper rest := by
        cases hb : b.upper with
        | none => rw [taxLoop_of_none, taxLoop_of_none]
        | some u =>
          rw [hb] at hrest
          exact ih u hrest.2
      linarith

theorem roundHalfEven_bounds (q : ℚ) :
    ⌊q⌋ ≤ roundHalfEven q ∧ roundHalfEven q ≤ ⌊q⌋ + 1 := by
  unfold roundHalfEven
  split_ifs <;> omega

theorem roundHalfEven_mono {x y : ℚ} (h : x ≤ y) :
    roundHalfEven x ≤ roundHalfEven y := by
  rcases eq_or_lt_of_le (Int.floor_le_floor h) with hf | hf
  · have hfr : Int.fract x ≤ Int.fract y := by
      unfold Int.fract
      rw [← hf]
      linarith
    unfold roundHalfEven
    rw [← hf]
    split_ifs <;> first | omega | (exfalso; linarith)
  · calc roundHalfEven x ≤ ⌊x⌋ + 1 := (roundHalfEven_bounds x).2
      _ ≤ ⌊y⌋ := by omega
      _ ≤ roundHalfEven y := (roundHalfEven_bounds y).1

theorem roundHalfEven_intCast (n : ℤ) : roundHalfEven (n : ℚ) = n := by
  norm_num [roundHalfEven, Int.fract_intCast, Int.floor_intCast]

theorem round2_mono {x y : ℚ} (h : x ≤ y) : round2 x ≤ round2 y := by
  unfold round2
  have hm := roundHalfEven_mono (mul_le_mul_of_nonneg_right h (by norm_num : (0:ℚ) ≤ 100))
  have : (roundHalfEven (x * 100) : ℚ) ≤ (roundHalfEven (y * 100) : ℚ) := by
    exact_mod_cast hm
  linarith

theorem round2_nonneg {q : ℚ} (h : 0 ≤ q) : 0 ≤ round2 q := by
  unfold round2
  have h1 : (0:ℤ) ≤ ⌊q * 100⌋ := Int.floor_nonneg.mpr (by positivity)
  have h2 := (roundHalfEven_bounds (q * 100)).1
  have : (0:ℚ) ≤ (roundHalfEven (q * 100) : ℚ) := by exact_mod_cast le_trans h1 h2
  linarith

theorem round2_mul_hundred (q : ℚ) :
    round2 q * 100 = (roundHalfEven (q * 100) : ℚ) := by
  unfold round2
  field_simp

theorem round2_idem (q : ℚ) : round2 (round2 q) = round2 q := by
  rw [round2, round2_mul_hundred, roundHalfEven_intCast, round2]

theorem taxLoop_eq_specTaxLoop (c : ℚ) :
    ∀ (bs : List Band) (l : Option ℚ),
      taxLoop c l bs = specTaxLoop c l (bs.map fun b => (b.upper, b.rate)) := by
  intro bs
  induction bs with
  | nil => intro l; cases l <;> rfl
  | cons b rest ih =>
    intro l
    cases l with
    | none => rfl
    | some lv =>
      show (if c ≤ lv then 0
          else (if b.rate = 0 then 0 else (minUpper c b.upper - lv) * b.rate) +
            taxLoop c b.upper rest) =
        (if c ≤ lv then 0
          else (minUpper c b.upper - lv) * b.rate +
            specTaxLoop c b.upper (rest.map fun b => (b.upper, b.rate)))
      by_cases hr : b.rate = 0 <;> simp [hr, ih]

theorem map_brackets_eq_specBands :
    (brackets.map fun b => (b.upper, b.rate)) = specBands := rfl

/-- C1: for every pair of rational inputs, `calculate_tax` agrees with the
reference definition `computeTax` built from the spec's wording: the
progressive-band sum of `max(0, income - relief)` over the fixed
ten-band table, rounded to 2 decimal places. -/
theorem calculate_tax_eq_computeTax (income relief : ℚ) :
    calculate_tax income relief = computeTax income relief := by
  simp only [calculate_tax, computeTax]
  rw [taxLoop_eq_specTaxLoop, map_brackets_eq_specBands]

/-- C2 counterexample: `calculate_tax(100000, 0)` is not `3700.00` —
the code returns `9400.00` there, so the claim's fourth point
evaluation is false as stated. -/
theorem calculate_tax_at_100000_ne_3700 : calculate_tax 100000 0 ≠ 3700 := by
  norm_num [calculate_tax, taxLoop, brackets, minUpper, round2, roundHalfEven,
    Int.fract]

/-- C2 (amended): the four concrete point evaluations of
`calculate_tax`, with the fourth corrected to the value the code (and
the published cumulative table) yields: `calculate_tax(5000, 0) = 0.00`,
`calculate_tax(20000, 0) = 150.00`, `calculate_tax(35000, 0) = 600.00`
and `calculate_tax(100000, 0) = 9400.00`. -/
theorem calculate_tax_point_evaluations :
    calculate_tax 5000 0 = 0 ∧ calculate_tax 20000 0 = 150 ∧
      calculate_tax 35000 0 = 600 ∧ calculate_tax 100000 0 = 9400 := by
  refine ⟨?_, ?_, ?_, ?_⟩ <;>
    norm_num [calculate_tax, taxLoop, brackets, minUpper, round2, roundHalfEven,
      Int.fract]

/-- C3: every pair of rational inputs — negative values included — is
accepted (the checked wrapper returns normally), and whenever
`income ≤ relief` the returned tax payable is `0.00`. -/
theorem calculate_tax_income_le_relief (i r : ℚ) :
    calculate_tax_checked ⟨some i⟩ ⟨some r⟩ = Except.ok (calculate_tax i r) ∧
      (i ≤ r → calculate_tax i r = 0) := by
  constructor
  · rfl
  · intro h
    simp only [calculate_tax]
    have hc : max 0 (i - r) = 0 := max_eq_left (by linarith)
    rw [hc]
    have hz : taxLoop 0 (some 0) brackets = 0 := by
      simp only [brackets, taxLoop_cons]
      norm_num
    rw [hz]
    norm_num [round2, roundHalfEven, Int.fract]

/-- C3 witness: the negative pair `(-7, -2)` is accepted and, since
`-7 ≤ -2`, yields tax `0`. -/
theorem calculate_tax_income_le_relief_witness :
    (-7 : ℚ) ≤ -2 ∧
      calculate_tax_checked ⟨some (-7)⟩ ⟨some (-2)⟩ =
        Except.ok (calculate_tax (-7) (-2)) ∧
      calculate_tax (-7) (-2) = 0 :=
  ⟨by norm_num, (calculate_tax_income_le_relief (-7) (-2)).1,
    (calculate_tax_income_le_relief (-7) (-2)).2 (by norm_num)⟩

/-- C4: the checked `calculate_tax` raises exactly when at least one of
its two inputs cannot be coerced to a number, returns normally on
numeric inputs, and its only error kind is the invalid-input error with
the source's message. -/
theorem calculate_tax_checked_error_iff (a b : PyVal) :
    ((∃ q, calculate_tax_checked a b = Except.ok q) ↔
      a.toFloat ≠ none ∧ b.toFloat ≠ none) ∧
    (∀ e, calculate_tax_checked a b = Except.error e →
      e = TaxError.invalidInput "Income and tax_relief must be numeric.") := by
  obtain ⟨oa⟩ := a
  obtain ⟨ob⟩ := b
  cases oa <;> cases ob <;> simp [calculate_tax_checked]

/-- C4 witness: a numeric pair is accepted, and the one error the
non-numeric pair produces is the invalid-input error. -/
theorem calculate_tax_checked_error_iff_witness :
    (∃ q, calculate_tax_checked ⟨some 3⟩ ⟨some 1⟩ = Except.ok q) ∧
      TaxError.invalidInput "Income and tax_relief must be numeric." =
        TaxError.invalidInput "Income and tax_relief must be numeric." :=
  ⟨(calculate_tax_checked_error_iff ⟨some 3⟩ ⟨some 1⟩).1.mpr
      ⟨by simp, by simp⟩,
    (calculate_tax_checked_error_iff ⟨none⟩ ⟨some 1⟩).2
      (TaxError.invalidInput "Income and tax_relief must be numeric.") rfl⟩

/-- C5: for every band of the bracket table with a finite upper bound
`u`, a chargeable income exactly equal to `u` is taxed inclusively in
the lower band: `calculate_tax u 0` equals the cumulative tax of all
bands up to and including the band ending at `u`, each taken in full
width at its own rate — no gap and no double counting. -/
theorem calculate_tax_band_boundary (i : ℕ) (hi : i < brackets.length) (u : ℚ)
    (hu : (brackets.get ⟨i, hi⟩).upper = some u) :
    calculate_tax u 0 = fullBandsTax 0 (brackets.take (i + 1)) := by
  have h10 : i < 10 := hi
  interval_cases i <;>
    simp only [brackets, List.get_eq_getElem, List.getElem_cons_zero,
      List.getElem_cons_succ, Option.some.injEq] at hu <;>
    first
      | (subst hu
         norm_num [calculate_tax, taxLoop, brackets, minUpper, round2,
           roundHalfEven, Int.fract, fullBandsTax, List.take])
      | (exact absurd hu (by simp))

/-- C5 witness: the fifth band ends at `70000`, and the tax at exactly
`70000` is the cumulative tax of the first five bands in full. -/
theorem calculate_tax_band_boundary_witness :
    (brackets.get ⟨4, by norm_num [brackets]⟩).upper = some 70000 ∧
      calculate_tax 70000 0 = fullBandsTax 0 (brackets.take 5) :=
  ⟨rfl, calculate_tax_band_boundary 4 (by norm_num [brackets]) 70000 rfl⟩

/-- C6: `calculate_tax` is monotonically non-decreasing in income for
fixed relief and non-increasing in relief for fixed income. -/
theorem calculate_tax_monotone :
    (∀ (r i₁ i₂ : ℚ), i₁ ≤ i₂ → calculate_tax i₁ r ≤ calculate_tax i₂ r) ∧
    (∀ (i r₁ r₂ : ℚ), r₁ ≤ r₂ → calculate_tax i r₂ ≤ calculate_tax i r₁) := by
  constructor
  · intro r i₁ i₂ h
    simp only [calculate_tax]
    exact round2_mono
      (taxLoop_mono (max_le_max (le_refl 0) (sub_le_sub_right h r))
        brackets 0 chainOK_brackets)
  · intro i r₁ r₂ h
    simp only [calculate_tax]
    exact round2_mono
      (taxLoop_mono (max_le_max (le_refl 0) (sub_le_sub_left h i))
        brackets 0 chainOK_brackets)

/-- C6 witness: monotonicity at the concrete points `(100, 5) ≤ (200, 5)`
in income and `(30000, 5) ≥ (30000, 10)` in relief. -/
theorem calculate_tax_monotone_witness :
    ((100 : ℚ) ≤ 200 ∧ calculate_tax 100 5 ≤ calculate_tax 200 5) ∧
    ((5 : ℚ) ≤ 10 ∧ calculate_tax 30000 10 ≤ calculate_tax 30000 5) :=
  ⟨⟨by norm_num, calculate_tax_monotone.1 5 100 200 (by norm_num)⟩,
    ⟨by norm_num, calculate_tax_monotone.2 30000 5 10 (by norm_num)⟩⟩

/-- C7: on every pair of inputs the returned tax payable is non-negative
and is a fixed point of rounding to 2 decimal places. -/
theorem calculate_tax_nonneg_rounded (i r : ℚ) :
    0 ≤ calculate_tax i r ∧ round2 (calculate_tax i r) = calculate_tax i r := by
  constructor
  · simp only [calculate_tax]
    exact round2_nonneg (taxLoop_nonneg _ brackets 0 chainOK_brackets)
  · simp only [calculate_tax]
    exact round2_idem _

/-- C8: `calculate_tax` is a pure function of its argument values: any
two calls whose arguments coerce to the same numbers return the same
result, with no hidden state influencing the outcome. -/
theorem calculate_tax_checked_deterministic (a b a' b' : PyVal)
    (ha : a.toFloat = a'.toFloat) (hb : b.toFloat = b'.toFloat) :
    calculate_tax_checked a b = calculate_tax_checked a' b' := by
  unfold calculate_tax_checked
  rw [ha, hb]

/-- C8 witness: two calls with the identical inputs `(42, 7)` yield the
identical output. -/
theorem calculate_tax_checked_deterministic_witness :
    calculate_tax_checked ⟨some 42⟩ ⟨some 7⟩ =
      calculate_tax_checked ⟨some 42⟩ ⟨some 7⟩ :=
  calculate_tax_checked_deterministic ⟨some 42⟩ ⟨some 7⟩ ⟨some 42⟩ ⟨some 7⟩
    rfl rfl

/-- C9: `verify_user` returns `true` exactly when both arguments are
strings, the digit characters of `ic_number` number exactly 12, and the
password equals the last 4 of those digits; in every other case it
returns `false` (it never raises, being a total function). -/
theorem verify_user_iff (a b : PyArg) :
    verify_user a b = true ↔
      ∃ ic pw, a = PyArg.str ic ∧ b = PyArg.str pw ∧
        (icDigits ic).length = 12 ∧
        pw = String.mk ((icDigits ic).drop ((icDigits ic).length - 4)) := by
  cases a with
  | other => simp [verify_user]
  | str ic =>
    cases b with
    | other => simp [verify_user]
    | str pw =>
      simp only [verify_user, PyArg.str.injEq]
      by_cases h : (icDigits ic).length = 12
      · simp [h, beq_iff_eq]
      · simp [h]

/-- C10: `read_from_csv` is total (never raises): it returns `none` when
the file is missing or parsing fails, and the parsed records otherwise. -/
theorem read_from_csv_total {C D : Type} (fs : String → Option C)
    (readCsv : C → Option D) (f : String) :
    (fs f = none → read_from_csv fs readCsv f = none) ∧
    (∀ c, fs f = some c → readCsv c = none →
      read_from_csv fs readCsv f = none) ∧
    (∀ c d, fs f = some c → readCsv c = some d →
      read_from_csv fs readCsv f = some d) := by
  refine ⟨?_, ?_, ?_⟩
  · intro h
    simp [read_from_csv, h]
  · intro c h hp
    simp [read_from_csv, h, hp]
  · intro c d h hp
    simp [read_from_csv, h, hp]

/-- C10 witness: on a one-file store whose parse succeeds, the parsed
record is returned. -/
theorem read_from_csv_total_witness :
    read_from_csv (fun _ => some (0 : ℕ)) (fun c => some c)
      "tax_records.csv" = some 0 :=
  (read_from_csv_total (fun _ => some (0 : ℕ)) (fun c => some c)
    "tax_records.csv").2.2 0 0 rfl rfl

end TaxProgram
